import Mathlib

/-!
Verification development for the lan-meeting repository (src/src-tauri).

The development shallowly embeds the parts of the program the claims are
about:

* `src/network/protocol.rs` — the framed control-message codec (`encode`,
  `decode`, `MessageCodec`).  The payload serialisation is `bincode`
  (v1 defaults: little-endian, fixed-width integers; enum variants are
  `u32` indices in declaration order, `String`/`Vec` are a `u64`
  byte/element count followed by the contents, `Option` is a one-byte tag,
  `bool` one byte).  Rust `String` fields are modelled by their UTF-8 byte
  sequences (`List Byte`); `f32` fields by their 32-bit patterns, which is
  exactly what bincode moves.  The UTF-8 validity check that bincode's
  deserialiser performs on `String` is not modelled: every payload decoded
  in the claims was produced by `encode` from well-formed strings.
* `src/encoder/scaler.rs` — `FrameScaler`; the `f64` arithmetic of
  `new_with_target` is modelled exactly over `ℚ` (a division by zero gives
  `0` in `ℚ` where Rust produces `NaN`; the claimed bounds hold in either
  semantics and the `f64` rounding error, below `2^-30` here, cannot move
  a product past the next integer).
* `src/encoder/software.rs` — keyframe classification of encoder output.
* `src/renderer/window.rs` — the render-window command channel.
* `src/network/quic.rs` — the connection registry and `send_to_peer`.
* `src/commands/mod.rs` — `is_real_lan_ip`; `src/network/discovery.rs` —
  the LAN-address filter of `register_service`.

Machine integers are `Fin`/`Nat` with explicit bounds; buffers are
`List Byte`.
-/

namespace LanMeeting

/-- A byte, as moved by the wire protocol. -/
abbrev Byte := Fin 256

/-- The byte of a natural number (`as u8` truncation). -/
def natByte (k : Nat) : Byte := ⟨k % 256, Nat.mod_lt _ (by decide)⟩

@[simp] theorem natByte_val (k : Nat) : (natByte k).val = k % 256 := rfl

/-- A Rust `u32` value. -/
abbrev U32 := Fin 4294967296

/-- A Rust `u64` value. -/
abbrev U64 := Fin 18446744073709551616

/-- A Rust `String`, as its UTF-8 byte sequence. -/
abbrev RStr := List Byte

/-! ### bincode v1 primitive encoders (little-endian, fixed width) -/

/-- Little-endian 4-byte encoding of a natural number (bincode `u32`). -/
def u32le (k : Nat) : List Byte :=
  [natByte k, natByte (k / 256), natByte (k / 65536), natByte (k / 16777216)]

/-- Little-endian 8-byte encoding of a natural number (bincode `u64`). -/
def u64le (k : Nat) : List Byte :=
  [natByte k, natByte (k / 256), natByte (k / 65536), natByte (k / 16777216),
   natByte (k / 4294967296), natByte (k / 1099511627776),
   natByte (k / 281474976710656), natByte (k / 72057594037927936)]

def encU32 (x : U32) : List Byte := u32le x.val

def encU64 (x : U64) : List Byte := u64le x.val

def encBool (b : Bool) : List Byte := [if b then natByte 1 else natByte 0]

/-- bincode `String` / `Vec<u8>`: `u64` length then the raw bytes. -/
def encBytes (s : List Byte) : List Byte := u64le s.length ++ s

/-- Concatenated element encodings (the body of a bincode `Vec`). -/
def encListWith (f : α → List Byte) : List α → List Byte
  | [] => []
  | x :: xs => f x ++ encListWith f xs

/-- bincode `Vec<T>`: `u64` element count then the elements. -/
def encVec (f : α → List Byte) (xs : List α) : List Byte :=
  u64le xs.length ++ encListWith f xs

/-- bincode `Option<T>`: one-byte tag then the value. -/
def encOpt (f : α → List Byte) : Option α → List Byte
  | Option.none => [natByte 0]
  | Option.some x => natByte 1 :: f x

/-! ### bincode v1 primitive parsers -/

def parseU8 : List Byte → Option (Byte × List Byte)
  | b :: r => some (b, r)
  | [] => none

def parseU32 : List Byte → Option (Nat × List Byte)
  | b0 :: b1 :: b2 :: b3 :: r =>
      some (b0.val + 256 * b1.val + 65536 * b2.val + 16777216 * b3.val, r)
  | _ => none

def parseU64 : List Byte → Option (Nat × List Byte)
  | b0 :: b1 :: b2 :: b3 :: b4 :: b5 :: b6 :: b7 :: r =>
      some (b0.val + 256 * b1.val + 65536 * b2.val + 16777216 * b3.val
            + 4294967296 * b4.val + 1099511627776 * b5.val
            + 281474976710656 * b6.val + 72057594037927936 * b7.val, r)
  | _ => none

def parseU32f (bs : List Byte) : Option (U32 × List Byte) :=
  match parseU32 bs with
  | some (n, r) =>
      if h : n < 4294967296 then some (⟨n, h⟩, r) else none
  | none => none

def parseU64f (bs : List Byte) : Option (U64 × List Byte) :=
  match parseU64 bs with
  | some (n, r) =>
      if h : n < 18446744073709551616 then some (⟨n, h⟩, r) else none
  | none => none

def parseBool : List Byte → Option (Bool × List Byte)
  | b :: r =>
      if b.val = 0 then some (false, r)
      else if b.val = 1 then some (true, r)
      else none
  | [] => none

def parseTake (n : Nat) (bs : List Byte) : Option (List Byte × List Byte) :=
  if n ≤ bs.length then some (bs.take n, bs.drop n) else none

def parseBytes (bs : List Byte) : Option (List Byte × List Byte) :=
  match parseU64 bs with
  | some (n, r) => parseTake n r
  | none => none

def parseCount (p : List Byte → Option (α × List Byte)) :
    Nat → List Byte → Option (List α × List Byte)
  | 0, bs => some ([], bs)
  | n + 1, bs =>
      match p bs with
      | some (x, r) =>
          match parseCount p n r with
          | some (xs, r2) => some (x :: xs, r2)
          | none => none
      | none => none

def parseVec (p : List Byte → Option (α × List Byte)) (bs : List Byte) :
    Option (List α × List Byte) :=
  match parseU64 bs with
  | some (n, r) => parseCount p n r
  | none => none

def parseOpt (p : List Byte → Option (α × List Byte)) :
    List Byte → Option (Option α × List Byte)
  | b :: r =>
      if b.val = 0 then some (Option.none, r)
      else if b.val = 1 then
        match p r with
        | some (x, r2) => some (Option.some x, r2)
        | none => none
      else none
  | [] => none

/-! ### Round-trip lemmas for the primitives -/

@[simp] theorem parseU32_u32le (k : Nat) (hk : k < 4294967296) (r : List Byte) :
    parseU32 (u32le k ++ r) = some (k, r) := by
  simp only [u32le, List.cons_append, List.nil_append, parseU32, natByte_val]
  congr 2
  omega

@[simp] theorem parseU64_u64le (k : Nat) (hk : k < 18446744073709551616)
    (r : List Byte) : parseU64 (u64le k ++ r) = some (k, r) := by
  simp only [u64le, List.cons_append, List.nil_append, parseU64, natByte_val]
  congr 2
  omega

@[simp] theorem parseU32f_enc (x : U32) (r : List Byte) :
    parseU32f (encU32 x ++ r) = some (x, r) := by
  have hx := x.isLt
  simp only [parseU32f, encU32, parseU32_u32le x.val hx r]
  simp [hx]

@[simp] theorem parseU64f_enc (x : U64) (r : List Byte) :
    parseU64f (encU64 x ++ r) = some (x, r) := by
  have hx := x.isLt
  simp only [parseU64f, encU64, parseU64_u64le x.val hx r]
  simp [hx]

@[simp] theorem parseBool_enc (b : Bool) (r : List Byte) :
    parseBool (encBool b ++ r) = some (b, r) := by
  cases b <;> simp [encBool, parseBool, natByte]

@[simp] theorem parseU8_cons (b : Byte) (r : List Byte) :
    parseU8 (b :: r) = some (b, r) := rfl

@[simp] theorem parseBytes_enc (s : List Byte) (hs : s.length < 18446744073709551616)
    (r : List Byte) : parseBytes (encBytes s ++ r) = some (s, r) := by
  simp only [encBytes, List.append_assoc, parseBytes,
    parseU64_u64le s.length hs (s ++ r), parseTake]
  rw [if_pos (by simp)]
  simp

theorem parseCount_encListWith (p : α → List Byte)
    (q : List Byte → Option (α × List Byte)) (xs : List α)
    (hq : ∀ x ∈ xs, ∀ r, q (p x ++ r) = some (x, r)) (r : List Byte) :
    parseCount q xs.length (encListWith p xs ++ r) = some (xs, r) := by
  induction xs with
  | nil => simp [encListWith, parseCount]
  | cons x xs ih =>
      simp only [encListWith, List.append_assoc, List.length_cons, parseCount,
        hq x (by simp) (encListWith p xs ++ r)]
      rw [ih (fun y hy => hq y (by simp [hy]))]

theorem parseVec_enc (p : α → List Byte) (q : List Byte → Option (α × List Byte))
    (xs : List α) (hlen : xs.length < 18446744073709551616)
    (hq : ∀ x ∈ xs, ∀ r, q (p x ++ r) = some (x, r)) (r : List Byte) :
    parseVec q (encVec p xs ++ r) = some (xs, r) := by
  simp only [encVec, List.append_assoc, parseVec,
    parseU64_u64le xs.length hlen (encListWith p xs ++ r)]
  exact parseCount_encListWith p q xs hq r

theorem parseOpt_enc (p : α → List Byte) (q : List Byte → Option (α × List Byte))
    (x : Option α) (hq : ∀ y ∈ x, ∀ r, q (p y ++ r) = some (y, r)) (r : List Byte) :
    parseOpt q (encOpt p x ++ r) = some (x, r) := by
  cases x with
  | none => simp [encOpt, parseOpt, natByte]
  | some y =>
      simp [encOpt, parseOpt, natByte, hq y (by simp) r]

/-! ### The control-message data model (`network/protocol.rs`) -/

/-- `protocol.rs` `FrameType` (the protocol-level one, not the encoder's). -/
inductive PFrameType
  | keyFrame
  | deltaFrame
deriving DecidableEq

inductive InputEventType
  | mouseMove
  | mouseDown
  | mouseUp
  | mouseScroll
  | keyDown
  | keyUp
deriving DecidableEq

inductive PMouseButton
  | left
  | right
  | middle
deriving DecidableEq

structure Modifiers where
  shift : Bool
  ctrl : Bool
  alt : Bool
  meta : Bool
deriving DecidableEq

/-- `InputData`; `f32` fields carry their 32-bit patterns. -/
inductive InputData
  | mouse (button : PMouseButton)
  | scroll (delta_x delta_y : U32)
  | key (key_code : U32) (modifiers : Modifiers)
  | noData
deriving DecidableEq

structure DisplayInfo where
  id : U32
  name : RStr
  width : U32
  height : U32
  primary : Bool
deriving DecidableEq

/-- `protocol.rs` `Message`, fields in declaration order. -/
inductive Message
  | handshake (device_id name version : RStr) (capabilities : List RStr)
  | handshakeAck (device_id name version : RStr) (accepted : Bool)
      (reason : Option RStr)
  | disconnect (reason : RStr)
  | heartbeat (timestamp : U64)
  | heartbeatAck (timestamp : U64) (latency_ms : U32)
  | screenOffer (displays : List DisplayInfo)
  | screenRequest (display_id : U32) (preferred_fps preferred_quality : Byte)
  | screenStart (width height : U32) (fps : Byte) (codec : RStr)
  | screenFrame (timestamp : U64) (frame_type : PFrameType) (sequence : U32)
      (data : List Byte)
  | screenStop
  | controlRequest (from_user : RStr)
  | controlGrant (to_user : RStr)
  | controlRevoke
  | inputEvent (event_type : InputEventType) (x y : U32) (data : InputData)
  | chatMessage (from_ content : RStr) (timestamp : U64)
  | fileOffer (file_id name : RStr) (size : U64) (checksum : RStr)
  | fileAccept (file_id : RStr)
  | fileReject (file_id : RStr)
  | fileChunk (file_id : RStr) (offset : U64) (data : List Byte)
  | fileComplete (file_id : RStr)
  | fileCancel (file_id : RStr)
deriving DecidableEq

/-- `Message::message_type(&self) as u8` — the wire TYPE byte. -/
def Message.typeByte : Message → Byte
  | .handshake .. => natByte 0x00
  | .handshakeAck .. => natByte 0x01
  | .disconnect .. => natByte 0x02
  | .heartbeat .. => natByte 0x03
  | .heartbeatAck .. => natByte 0x04
  | .screenOffer .. => natByte 0x10
  | .screenRequest .. => natByte 0x11
  | .screenStart .. => natByte 0x12
  | .screenFrame .. => natByte 0x13
  | .screenStop => natByte 0x14
  | .controlRequest .. => natByte 0x20
  | .controlGrant .. => natByte 0x21
  | .controlRevoke => natByte 0x22
  | .inputEvent .. => natByte 0x23
  | .chatMessage .. => natByte 0x30
  | .fileOffer .. => natByte 0x40
  | .fileAccept .. => natByte 0x41
  | .fileReject .. => natByte 0x42
  | .fileChunk .. => natByte 0x43
  | .fileComplete .. => natByte 0x44
  | .fileCancel .. => natByte 0x45

/-- `MessageType::try_from(u8)` succeeds exactly on the listed tags. -/
def validTypeByte (b : Byte) : Bool :=
  b.val = 0x00 || b.val = 0x01 || b.val = 0x02 || b.val = 0x03 || b.val = 0x04 ||
  b.val = 0x10 || b.val = 0x11 || b.val = 0x12 || b.val = 0x13 || b.val = 0x14 ||
  b.val = 0x20 || b.val = 0x21 || b.val = 0x22 || b.val = 0x23 ||
  b.val = 0x30 ||
  b.val = 0x40 || b.val = 0x41 || b.val = 0x42 || b.val = 0x43 || b.val = 0x44 ||
  b.val = 0x45

/-! ### bincode serialisation of `Message` -/

def encFrameType : PFrameType → List Byte
  | .keyFrame => u32le 0
  | .deltaFrame => u32le 1

def encInputEventType : InputEventType → List Byte
  | .mouseMove => u32le 0
  | .mouseDown => u32le 1
  | .mouseUp => u32le 2
  | .mouseScroll => u32le 3
  | .keyDown => u32le 4
  | .keyUp => u32le 5

def encMouseButton : PMouseButton → List Byte
  | .left => u32le 0
  | .right => u32le 1
  | .middle => u32le 2

def encModifiers (m : Modifiers) : List Byte :=
  encBool m.shift ++ encBool m.ctrl ++ encBool m.alt ++ encBool m.meta

def encInputData : InputData → List Byte
  | .mouse b => u32le 0 ++ encMouseButton b
  | .scroll dx dy => u32le 1 ++ encU32 dx ++ encU32 dy
  | .key kc m => u32le 2 ++ encU32 kc ++ encModifiers m
  | .noData => u32le 3

def encDisplayInfo (d : DisplayInfo) : List Byte :=
  encU32 d.id ++ encBytes d.name ++ encU32 d.width ++ encU32 d.height ++
  encBool d.primary

/-- `bincode::serialize(msg)`: the `u32` variant index in declaration
order, then the fields in order. -/
def serializeMsg : Message → List Byte
  | .handshake d n v c =>
      u32le 0 ++ encBytes d ++ encBytes n ++ encBytes v ++ encVec encBytes c
  | .handshakeAck d n v a reason =>
      u32le 1 ++ encBytes d ++ encBytes n ++ encBytes v ++ encBool a ++
      encOpt encBytes reason
  | .disconnect reason => u32le 2 ++ encBytes reason
  | .heartbeat ts => u32le 3 ++ encU64 ts
  | .heartbeatAck ts lat => u32le 4 ++ encU64 ts ++ encU32 lat
  | .screenOffer ds => u32le 5 ++ encVec encDisplayInfo ds
  | .screenRequest did fps q => u32le 6 ++ encU32 did ++ [fps] ++ [q]
  | .screenStart w h fps codec =>
      u32le 7 ++ encU32 w ++ encU32 h ++ [fps] ++ encBytes codec
  | .screenFrame ts ft seq data =>
      u32le 8 ++ encU64 ts ++ encFrameType ft ++ encU32 seq ++ encBytes data
  | .screenStop => u32le 9
  | .controlRequest u => u32le 10 ++ encBytes u
  | .controlGrant u => u32le 11 ++ encBytes u
  | .controlRevoke => u32le 12
  | .inputEvent et x y data =>
      u32le 13 ++ encInputEventType et ++ encU32 x ++ encU32 y ++
      encInputData data
  | .chatMessage f c ts => u32le 14 ++ encBytes f ++ encBytes c ++ encU64 ts
  | .fileOffer fid n sz ck =>
      u32le 15 ++ encBytes fid ++ encBytes n ++ encU64 sz ++ encBytes ck
  | .fileAccept fid => u32le 16 ++ encBytes fid
  | .fileReject fid => u32le 17 ++ encBytes fid
  | .fileChunk fid off data =>
      u32le 18 ++ encBytes fid ++ encU64 off ++ encBytes data
  | .fileComplete fid => u32le 19 ++ encBytes fid
  | .fileCancel fid => u32le 20 ++ encBytes fid

/-! ### bincode deserialisation of `Message` -/

def parseFrameType (bs : List Byte) : Option (PFrameType × List Byte) :=
  match parseU32 bs with
  | some (n, r) =>
      if n = 0 then some (.keyFrame, r)
      else if n = 1 then some (.deltaFrame, r)
      else none
  | none => none

def parseInputEventType (bs : List Byte) : Option (InputEventType × List Byte) :=
  match parseU32 bs with
  | some (n, r) =>
      if n = 0 then some (.mouseMove, r)
      else if n = 1 then some (.mouseDown, r)
      else if n = 2 then some (.mouseUp, r)
      else if n = 3 then some (.mouseScroll, r)
      else if n = 4 then some (.keyDown, r)
      else if n = 5 then some (.keyUp, r)
      else none
  | none => none

def parseMouseButton (bs : List Byte) : Option (PMouseButton × List Byte) :=
  match parseU32 bs with
  | some (n, r) =>
      if n = 0 then some (.left, r)
      else if n = 1 then some (.right, r)
      else if n = 2 then some (.middle, r)
      else none
  | none => none

def parseModifiers (bs : List Byte) : Option (Modifiers × List Byte) :=
  match parseBool bs with
  | some (s, r1) =>
      match parseBool r1 with
      | some (c, r2) =>
          match parseBool r2 with
          | some (a, r3) =>
              match parseBool r3 with
              | some (m, r4) => some (⟨s, c, a, m⟩, r4)
              | none => none
          | none => none
      | none => none
  | none => none

def parseInputData (bs : List Byte) : Option (InputData × List Byte) :=
  match parseU32 bs with
  | some (n, r) =>
      if n = 0 then
        match parseMouseButton r with
        | some (b, r1) => some (.mouse b, r1)
        | none => none
      else if n = 1 then
        match parseU32f r with
        | some (dx, r1) =>
            match parseU32f r1 with
            | some (dy, r2) => some (.scroll dx dy, r2)
            | none => none
        | none => none
      else if n = 2 then
        match parseU32f r with
        | some (kc, r1) =>
            match parseModifiers r1 with
            | some (m, r2) => some (.key kc m, r2)
            | none => none
        | none => none
      else if n = 3 then some (.noData, r)
      else none
  | none => none

def parseDisplayInfo (bs : List Byte) : Option (DisplayInfo × List Byte) :=
  match parseU32f bs with
  | some (i, r1) =>
      match parseBytes r1 with
      | some (nm, r2) =>
          match parseU32f r2 with
          | some (w, r3) =>
              match parseU32f r3 with
              | some (h, r4) =>
                  match parseBool r4 with
                  | some (p, r5) => some (⟨i, nm, w, h, p⟩, r5)
                  | none => none
              | none => none
          | none => none
      | none => none
  | none => none

/-- `bincode::deserialize::<Message>`: dispatch on the `u32` variant index,
then read the fields.  Trailing bytes are returned (bincode v1's
`deserialize` ignores them). -/
def parseMessage (bs : List Byte) : Option (Message × List Byte) :=
  match parseU32 bs with
  | Option.none => none
  | some (tag, r) =>
    if tag = 0 then
      match parseBytes r with
      | some (d, r1) =>
          match parseBytes r1 with
          | some (n, r2) =>
              match parseBytes r2 with
              | some (v, r3) =>
                  match parseVec parseBytes r3 with
                  | some (c, r4) => some (.handshake d n v c, r4)
                  | none => none
              | none => none
          | none => none
      | none => none
    else if tag = 1 then
      match parseBytes r with
      | some (d, r1) =>
          match parseBytes r1 with
          | some (n, r2) =>
              match parseBytes r2 with
              | some (v, r3) =>
                  match parseBool r3 with
                  | some (a, r4) =>
                      match parseOpt parseBytes r4 with
                      | some (reason, r5) =>
                          some (.handshakeAck d n v a reason, r5)
                      | none => none
                  | none => none
              | none => none
          | none => none
      | none => none
    else if tag = 2 then
      match parseBytes r with
      | some (reason, r1) => some (.disconnect reason, r1)
      | none => none
    else if tag = 3 then
      match parseU64f r with
      | some (ts, r1) => some (.heartbeat ts, r1)
      | none => none
    else if tag = 4 then
      match parseU64f r with
      | some (ts, r1) =>
          match parseU32f r1 with
          | some (lat, r2) => some (.heartbeatAck ts lat, r2)
          | none => none
      | none => none
    else if tag = 5 then
      match parseVec parseDisplayInfo r with
      | some (ds, r1) => some (.screenOffer ds, r1)
      | none => none
    else if tag = 6 then
      match parseU32f r with
      | some (did, r1) =>
          match parseU8 r1 with
          | some (fps, r2) =>
              match parseU8 r2 with
              | some (q, r3) => some (.screenRequest did fps q, r3)
              | none => none
          | none => none
      | none => none
    else if tag = 7 then
      match parseU32f r with
      | some (w, r1) =>
          match parseU32f r1 with
          | some (h, r2) =>
              match parseU8 r2 with
              | some (fps, r3) =>
                  match parseBytes r3 with
                  | some (codec, r4) => some (.screenStart w h fps codec, r4)
                  | none => none
              | none => none
          | none => none
      | none => none
    else if tag = 8 then
      match parseU64f r with
      | some (ts, r1) =>
          match parseFrameType r1 with
          | some (ft, r2) =>
              match parseU32f r2 with
              | some (seq, r3) =>
                  match parseBytes r3 with
                  | some (data, r4) => some (.screenFrame ts ft seq data, r4)
                  | none => none
              | none => none
          | none => none
      | none => none
    else if tag = 9 then some (.screenStop, r)
    else if tag = 10 then
      match parseBytes r with
      | some (u, r1) => some (.controlRequest u, r1)
      | none => none
    else if tag = 11 then
      match parseBytes r with
      | some (u, r1) => some (.controlGrant u, r1)
      | none => none
    else if tag = 12 then some (.controlRevoke, r)
    else if tag = 13 then
      match parseInputEventType r with
      | some (et, r1) =>
          match parseU32f r1 with
          | some (x, r2) =>
              match parseU32f r2 with
              | some (y, r3) =>
                  match parseInputData r3 with
                  | some (data, r4) => some (.inputEvent et x y data, r4)
                  | none => none
              | none => none
          | none => none
      | none => none
    else if tag = 14 then
      match parseBytes r with
      | some (f, r1) =>
          match parseBytes r1 with
          | some (c, r2) =>
              match parseU64f r2 with
              | some (ts, r3) => some (.chatMessage f c ts, r3)
              | none => none
          | none => none
      | none => none
    else if tag = 15 then
      match parseBytes r with
      | some (fid, r1) =>
          match parseBytes r1 with
          | some (n, r2) =>
              match parseU64f r2 with
              | some (sz, r3) =>
                  match parseBytes r3 with
                  | some (ck, r4) => some (.fileOffer fid n sz ck, r4)
                  | none => none
              | none => none
          | none => none
      | none => none
    else if tag = 16 then
      match parseBytes r with
      | some (fid, r1) => some (.fileAccept fid, r1)
      | none => none
    else if tag = 17 then
      match parseBytes r with
      | some (fid, r1) => some (.fileReject fid, r1)
      | none => none
    else if tag = 18 then
      match parseBytes r with
      | some (fid, r1) =>
          match parseU64f r1 with
          | some (off, r2) =>
              match parseBytes r2 with
              | some (data, r3) => some (.fileChunk fid off data, r3)
              | none => none
          | none => none
      | none => none
    else if tag = 19 then
      match parseBytes r with
      | some (fid, r1) => some (.fileComplete fid, r1)
      | none => none
    else if tag = 20 then
      match parseBytes r with
      | some (fid, r1) => some (.fileCancel fid, r1)
      | none => none
    else none

/-! ### Well-formedness: every `String`/`Vec` fits in a `usize`
(automatic for in-memory Rust values). -/

def bytesWF (s : List Byte) : Bool := decide (s.length < 18446744073709551616)

def displayWF (d : DisplayInfo) : Bool := bytesWF d.name

def msgWF : Message → Bool
  | .handshake d n v c =>
      bytesWF d && bytesWF n && bytesWF v &&
      decide (c.length < 18446744073709551616) && c.all bytesWF
  | .handshakeAck d n v _ reason =>
      bytesWF d && bytesWF n && bytesWF v &&
      (match reason with
       | Option.some s => bytesWF s
       | Option.none => true)
  | .disconnect reason => bytesWF reason
  | .heartbeat _ => true
  | .heartbeatAck _ _ => true
  | .screenOffer ds =>
      decide (ds.length < 18446744073709551616) && ds.all displayWF
  | .screenRequest _ _ _ => true
  | .screenStart _ _ _ codec => bytesWF codec
  | .screenFrame _ _ _ data => bytesWF data
  | .screenStop => true
  | .controlRequest u => bytesWF u
  | .controlGrant u => bytesWF u
  | .controlRevoke => true
  | .inputEvent _ _ _ _ => true
  | .chatMessage f c _ => bytesWF f && bytesWF c
  | .fileOffer fid n _ ck => bytesWF fid && bytesWF n && bytesWF ck
  | .fileAccept fid => bytesWF fid
  | .fileReject fid => bytesWF fid
  | .fileChunk fid _ data => bytesWF fid && bytesWF data
  | .fileComplete fid => bytesWF fid
  | .fileCancel fid => bytesWF fid

/-! ### Round-trip of the full message serialisation -/

@[simp] theorem parseFrameType_enc (ft : PFrameType) (r : List Byte) :
    parseFrameType (encFrameType ft ++ r) = some (ft, r) := by
  cases ft <;> simp [encFrameType, parseFrameType]

@[simp] theorem parseInputEventType_enc (et : InputEventType) (r : List Byte) :
    parseInputEventType (encInputEventType et ++ r) = some (et, r) := by
  cases et <;> simp [encInputEventType, parseInputEventType]

@[simp] theorem parseMouseButton_enc (b : PMouseButton) (r : List Byte) :
    parseMouseButton (encMouseButton b ++ r) = some (b, r) := by
  cases b <;> simp [encMouseButton, parseMouseButton]

@[simp] theorem parseModifiers_enc (m : Modifiers) (r : List Byte) :
    parseModifiers (encModifiers m ++ r) = some (m, r) := by
  simp [encModifiers, parseModifiers]

@[simp] theorem parseInputData_enc (d : InputData) (r : List Byte) :
    parseInputData (encInputData d ++ r) = some (d, r) := by
  cases d <;> simp [encInputData, parseInputData]

theorem parseDisplayInfo_enc (d : DisplayInfo) (hwf : displayWF d = true)
    (r : List Byte) : parseDisplayInfo (encDisplayInfo d ++ r) = some (d, r) := by
  simp only [displayWF, bytesWF, decide_eq_true_eq] at hwf
  simp [encDisplayInfo, parseDisplayInfo, hwf]

/-- bincode round-trip at the payload level: deserialising a serialised
message (with any trailing bytes) returns the message and the trailer. -/
theorem parseMessage_serializeMsg (m : Message) (hwf : msgWF m = true)
    (r : List Byte) : parseMessage (serializeMsg m ++ r) = some (m, r) := by
  cases m with
  | handshake d n v c =>
      simp only [msgWF, Bool.and_eq_true, bytesWF, decide_eq_true_eq,
        List.all_eq_true] at hwf
      obtain ⟨⟨⟨⟨hd, hn⟩, hv⟩, hc⟩, hall⟩ := hwf
      simp [serializeMsg, parseMessage, hd, hn, hv,
        parseVec_enc encBytes parseBytes c hc
          (fun x hx r2 => parseBytes_enc x (by
            have := hall x hx; simpa [bytesWF] using this) r2)]
  | handshakeAck d n v a reason =>
      simp only [msgWF, Bool.and_eq_true, bytesWF, decide_eq_true_eq] at hwf
      obtain ⟨⟨⟨hd, hn⟩, hv⟩, hr⟩ := hwf
      simp [serializeMsg, parseMessage, hd, hn, hv,
        parseOpt_enc encBytes parseBytes reason
          (fun y hy r2 => parseBytes_enc y (by
            cases reason with
            | none => cases hy
            | some s => cases hy; simpa [bytesWF] using hr) r2)]
  | disconnect reason =>
      simp only [msgWF, bytesWF, decide_eq_true_eq] at hwf
      simp [serializeMsg, parseMessage, hwf]
  | heartbeat ts => simp [serializeMsg, parseMessage]
  | heartbeatAck ts lat => simp [serializeMsg, parseMessage]
  | screenOffer ds =>
      simp only [msgWF, Bool.and_eq_true, decide_eq_true_eq,
        List.all_eq_true] at hwf
      obtain ⟨hc, hall⟩ := hwf
      simp [serializeMsg, parseMessage,
        parseVec_enc encDisplayInfo parseDisplayInfo ds hc
          (fun x hx r2 => parseDisplayInfo_enc x (hall x hx) r2)]
  | screenRequest did fps q => simp [serializeMsg, parseMessage]
  | screenStart w h fps codec =>
      simp only [msgWF, bytesWF, decide_eq_true_eq] at hwf
      simp [serializeMsg, parseMessage, hwf]
  | screenFrame ts ft seq data =>
      simp only [msgWF, bytesWF, decide_eq_true_eq] at hwf
      simp [serializeMsg, parseMessage, hwf]
  | screenStop => simp [serializeMsg, parseMessage]
  | controlRequest u =>
      simp only [msgWF, bytesWF, decide_eq_true_eq] at hwf
      simp [serializeMsg, parseMessage, hwf]
  | controlGrant u =>
      simp only [msgWF, bytesWF, decide_eq_true_eq] at hwf
      simp [serializeMsg, parseMessage, hwf]
  | controlRevoke => simp [serializeMsg, parseMessage]
  | inputEvent et x y data => simp [serializeMsg, parseMessage]
  | chatMessage f c ts =>
      simp only [msgWF, Bool.and_eq_true, bytesWF, decide_eq_true_eq] at hwf
      simp [serializeMsg, parseMessage, hwf.1, hwf.2]
  | fileOffer fid n sz ck =>
      simp only [msgWF, Bool.and_eq_true, bytesWF, decide_eq_true_eq] at hwf
      simp [serializeMsg, parseMessage, hwf.1.1, hwf.1.2, hwf.2]
  | fileAccept fid =>
      simp only [msgWF, bytesWF, decide_eq_true_eq] at hwf
      simp [serializeMsg, parseMessage, hwf]
  | fileReject fid =>
      simp only [msgWF, bytesWF, decide_eq_true_eq] at hwf
      simp [serializeMsg, parseMessage, hwf]
  | fileChunk fid off data =>
      simp only [msgWF, Bool.and_eq_true, bytesWF, decide_eq_true_eq] at hwf
      simp [serializeMsg, parseMessage, hwf.1, hwf.2]
  | fileComplete fid =>
      simp only [msgWF, bytesWF, decide_eq_true_eq] at hwf
      simp [serializeMsg, parseMessage, hwf]
  | fileCancel fid =>
      simp only [msgWF, bytesWF, decide_eq_true_eq] at hwf
      simp [serializeMsg, parseMessage, hwf]

/-! ### Wire format: `encode` / `decode` / `MessageCodec`
(`network/protocol.rs`).

The source wraps every failure in `NetworkError::ProtocolError` with a
formatted message; the message text is not modelled, the distinct error
sites are distinguished by constructor instead. -/

inductive ProtoError
  | dataTooShort
  | invalidMagic
  | badVersion
  | unknownType
  | tooLarge
  | incomplete
  | deserializeFail
deriving DecidableEq

/-- `MAGIC = [0x4C, 0x4D]`. -/
def MAGIC0 : Byte := natByte 0x4C
def MAGIC1 : Byte := natByte 0x4D

/-- `VERSION = 1`. -/
def VERSION : Byte := natByte 1

/-- Maximum message size (16 MiB). -/
def MAX_MESSAGE_SIZE : Nat := 16 * 1024 * 1024

/-- Header size: magic(2) + version(1) + type(1) + length(4). -/
def HEADER_SIZE : Nat := 8

/-- Big-endian 4-byte length field. -/
def u32be (k : Nat) : List Byte :=
  [natByte (k / 16777216), natByte (k / 65536), natByte (k / 256), natByte k]

/-- The big-endian `u32` read from bytes 4..8 of a buffer. -/
def lenField (data : List Byte) : Nat :=
  16777216 * (data.getD 4 0).val + 65536 * (data.getD 5 0).val +
  256 * (data.getD 6 0).val + (data.getD 7 0).val

/-- `protocol::encode`: serialise, reject oversize payloads, then
`MAGIC ++ VERSION ++ TYPE ++ length(BE) ++ payload`. -/
def encode (m : Message) : Except ProtoError (List Byte) :=
  let payload := serializeMsg m
  if payload.length > MAX_MESSAGE_SIZE then .error .tooLarge
  else .ok (MAGIC0 :: MAGIC1 :: VERSION :: m.typeByte ::
            (u32be payload.length ++ payload))

/-- `protocol::decode`: header checks, then bincode-deserialise the
payload slice. -/
def decode (data : List Byte) : Except ProtoError Message :=
  if data.length < HEADER_SIZE then .error .dataTooShort
  else if ¬(data.getD 0 0 = MAGIC0 ∧ data.getD 1 0 = MAGIC1) then
    .error .invalidMagic
  else if data.getD 2 0 ≠ VERSION then .error .badVersion
  else if validTypeByte (data.getD 3 0) = false then .error .unknownType
  else
    let len := lenField data
    if len > MAX_MESSAGE_SIZE then .error .tooLarge
    else if data.length < HEADER_SIZE + len then .error .incomplete
    else
      match parseMessage ((data.drop HEADER_SIZE).take len) with
      | some (m, _) => .ok m
      | Option.none => .error .deserializeFail

/-- `MessageCodec`: a growing byte buffer. -/
structure MessageCodec where
  buffer : List Byte
deriving DecidableEq

/-- `MessageCodec::new()`. -/
def MessageCodec.new : MessageCodec := ⟨[]⟩

/-- `MessageCodec::feed`. -/
def MessageCodec.feed (c : MessageCodec) (data : List Byte) : MessageCodec :=
  ⟨c.buffer ++ data⟩

/-- `MessageCodec::buffer_len`. -/
def MessageCodec.buffer_len (c : MessageCodec) : Nat := c.buffer.length

/-- `MessageCodec::find_magic`: position of the first two-byte window
equal to `MAGIC` (`windows(2).position`). -/
def findMagic : List Byte → Option Nat
  | b0 :: b1 :: rest =>
      if b0 = MAGIC0 ∧ b1 = MAGIC1 then some 0
      else (findMagic (b1 :: rest)).map (· + 1)
  | _ => none

/-- `MessageCodec::decode`.  Returns the decode result together with the
codec's buffer after the call. -/
def MessageCodec.decode (c : MessageCodec) :
    Except ProtoError (Option Message) × MessageCodec :=
  let bs := c.buffer
  if bs.length < HEADER_SIZE then (.ok Option.none, c)
  else if ¬(bs.getD 0 0 = MAGIC0 ∧ bs.getD 1 0 = MAGIC1) then
    match findMagic bs with
    | some pos => (.error .invalidMagic, ⟨bs.drop pos⟩)
    | Option.none => (.error .invalidMagic, ⟨[]⟩)
  else
    let len := lenField bs
    if len > MAX_MESSAGE_SIZE then (.error .tooLarge, ⟨bs.drop HEADER_SIZE⟩)
    else
      let total_len := HEADER_SIZE + len
      if bs.length < total_len then (.ok Option.none, c)
      else
        match LanMeeting.decode (bs.take total_len) with
        | .ok m => (.ok (Option.some m), ⟨bs.drop total_len⟩)
        | .error e => (.error e, ⟨bs.drop total_len⟩)

/-! ### C1: encode/decode round-trip -/

theorem typeByte_valid (m : Message) : validTypeByte m.typeByte = true := by
  cases m <;> rfl

theorem encode_ok_shape (m : Message) (bs : List Byte)
    (henc : encode m = .ok bs) :
    (serializeMsg m).length ≤ MAX_MESSAGE_SIZE ∧
    bs = MAGIC0 :: MAGIC1 :: VERSION :: m.typeByte ::
         (u32be (serializeMsg m).length ++ serializeMsg m) := by
  by_cases h : (serializeMsg m).length > MAX_MESSAGE_SIZE
  · simp [encode, h] at henc
  · simp [encode, h] at henc
    exact ⟨by omega, henc.symm⟩

theorem lenField_encoded (a b c d : Byte) (L : Nat) (hL : L < 4294967296)
    (p : List Byte) : lenField (a :: b :: c :: d :: (u32be L ++ p)) = L := by
  simp only [lenField, u32be, List.cons_append, List.getD_cons_succ,
    List.getD_cons_zero, natByte_val]
  omega

theorem decode_encode (m : Message) (bs : List Byte) (hwf : msgWF m = true)
    (henc : encode m = .ok bs) : decode bs = .ok m := by
  obtain ⟨hL, hbs⟩ := encode_ok_shape m bs henc
  subst hbs
  have hH : HEADER_SIZE = 8 := rfl
  have hM : MAX_MESSAGE_SIZE = 16777216 := rfl
  have hlen : (MAGIC0 :: MAGIC1 :: VERSION :: m.typeByte ::
      (u32be (serializeMsg m).length ++ serializeMsg m)).length
      = 8 + (serializeMsg m).length := by
    simp [u32be]
    omega
  have hL32 : (serializeMsg m).length < 4294967296 := by omega
  rw [decode]
  rw [if_neg (by omega)]
  rw [if_neg (by simp [MAGIC0, MAGIC1])]
  rw [if_neg (by simp [VERSION])]
  rw [if_neg (by simp [typeByte_valid])]
  simp only [lenField_encoded _ _ _ _ _ hL32]
  rw [if_neg (by omega)]
  rw [if_neg (by omega)]
  have hdrop : (MAGIC0 :: MAGIC1 :: VERSION :: m.typeByte ::
      (u32be (serializeMsg m).length ++ serializeMsg m)).drop HEADER_SIZE
      = serializeMsg m := by
    simp [u32be, HEADER_SIZE]
  rw [hdrop, List.take_length]
  rw [show serializeMsg m = serializeMsg m ++ [] from (List.append_nil _).symm,
    parseMessage_serializeMsg m hwf []]

theorem codec_decode_full (m : Message) (bs : List Byte)
    (hwf : msgWF m = true) (henc : encode m = .ok bs) :
    MessageCodec.decode ⟨bs⟩ = (.ok (Option.some m), ⟨[]⟩) := by
  obtain ⟨hL, hbs⟩ := encode_ok_shape m bs henc
  have hH : HEADER_SIZE = 8 := rfl
  have hM : MAX_MESSAGE_SIZE = 16777216 := rfl
  have hL32 : (serializeMsg m).length < 4294967296 := by omega
  have hlen : bs.length = 8 + (serializeMsg m).length := by
    subst hbs
    simp [u32be]
    omega
  rw [MessageCodec.decode]
  simp only []
  rw [if_neg (by omega)]
  rw [if_neg (by subst hbs; simp [MAGIC0, MAGIC1])]
  have hlf : lenField bs = (serializeMsg m).length := by
    subst hbs; exact lenField_encoded _ _ _ _ _ hL32 _
  simp only [hlf]
  rw [if_neg (by omega)]
  rw [if_neg (by omega)]
  have htake : bs.take (HEADER_SIZE + (serializeMsg m).length) = bs := by
    rw [show HEADER_SIZE + (serializeMsg m).length = bs.length from by omega]
    exact List.take_length bs
  have hdropall : bs.drop (HEADER_SIZE + (serializeMsg m).length) = [] := by
    apply List.drop_eq_nil_of_le
    omega
  rw [htake, hdropall, decode_encode m bs hwf henc]

/-- **C1.**  For every well-formed control message `m` that `encode`
accepts, `decode (encode m) = m`, and feeding `encode m` into a fresh
`MessageCodec` and calling `decode()` yields `Some m` (leaving the buffer
empty).  Well-formedness (`msgWF`) only states that every string and
vector field fits in a `usize`, which is automatic for Rust values. -/
theorem C1_protocol_roundtrip (m : Message) (bs : List Byte)
    (hwf : msgWF m = true) (henc : encode m = .ok bs) :
    decode bs = .ok m ∧
    (MessageCodec.new.feed bs).decode = (.ok (Option.some m), ⟨[]⟩) := by
  refine ⟨decode_encode m bs hwf henc, ?_⟩
  show MessageCodec.decode ⟨[] ++ bs⟩ = _
  rw [List.nil_append]
  exact codec_decode_full m bs hwf henc

/-! ### C7: resynchronisation on magic mismatch -/

/-- A buffer starts with the two `MAGIC` bytes. -/
def startsWithMagic : List Byte → Bool
  | b0 :: b1 :: _ => b0 = MAGIC0 && b1 = MAGIC1
  | _ => false

theorem findMagic_some_spec (bs : List Byte) (p : Nat)
    (h : findMagic bs = some p) :
    startsWithMagic (bs.drop p) = true ∧
    ∀ q < p, startsWithMagic (bs.drop q) = false := by
  induction bs generalizing p with
  | nil => simp [findMagic] at h
  | cons b0 tl ih =>
      cases tl with
      | nil => simp [findMagic] at h
      | cons b1 rest =>
          rw [findMagic] at h
          by_cases hm : b0 = MAGIC0 ∧ b1 = MAGIC1
          · rw [if_pos hm] at h
            simp only [Option.some.injEq] at h
            subst h
            refine ⟨by simp [startsWithMagic, hm.1, hm.2], ?_⟩
            intro q hq
            omega
          · rw [if_neg hm] at h
            cases hfm : findMagic (b1 :: rest) with
            | none => rw [hfm] at h; simp at h
            | some q =>
                rw [hfm] at h
                simp at h
                subst h
                obtain ⟨h1, h2⟩ := ih q hfm
                refine ⟨by simpa using h1, ?_⟩
                intro i hi
                cases i with
                | zero =>
                    simp only [List.drop_zero, startsWithMagic]
                    rw [Bool.and_eq_false_iff]
                    by_cases hb0 : b0 = MAGIC0
                    · right
                      simp only [decide_eq_false_iff_not]
                      intro hb1
                      exact hm ⟨hb0, hb1⟩
                    · left
                      simp [hb0]
                | succ j =>
                    have := h2 j (by omega)
                    simpa using this

theorem findMagic_none_spec (bs : List Byte) (h : findMagic bs = none) :
    ∀ q, startsWithMagic (bs.drop q) = false := by
  induction bs with
  | nil => intro q; simp [startsWithMagic]
  | cons b0 tl ih =>
      intro q
      cases tl with
      | nil =>
          cases q with
          | zero => rfl
          | succ j =>
              have hdrop : (b0 :: ([] : List Byte)).drop (j + 1) = [] := by simp
              rw [hdrop]
              rfl
      | cons b1 rest =>
          rw [findMagic] at h
          by_cases hm : b0 = MAGIC0 ∧ b1 = MAGIC1
          · rw [if_pos hm] at h; cases h
          · rw [if_neg hm] at h
            cases hfm : findMagic (b1 :: rest) with
            | some p => rw [hfm] at h; simp at h
            | none =>
                have htl := ih hfm
                cases q with
                | zero =>
                    simp only [List.drop_zero, startsWithMagic]
                    rw [Bool.and_eq_false_iff]
                    by_cases hb0 : b0 = MAGIC0
                    · right
                      simp only [decide_eq_false_iff_not]
                      intro hb1
                      exact hm ⟨hb0, hb1⟩
                    · left
                      simp [hb0]
                | succ j => simpa using htl j

theorem getD_magic_iff (bs : List Byte) (h2 : 2 ≤ bs.length) :
    (bs.getD 0 0 = MAGIC0 ∧ bs.getD 1 0 = MAGIC1) ↔
    startsWithMagic bs = true := by
  match bs, h2 with
  | b0 :: b1 :: rest, _ =>
      simp [startsWithMagic, List.getD_cons_zero, List.getD_cons_succ]

/-- **C7.**  If at least 8 bytes are buffered and the buffer does not
start with `MAGIC`, `MessageCodec::decode` returns a protocol error and
afterwards the buffer either starts at the first occurrence of `MAGIC`
inside the old contents or is empty (no occurrence at all). -/
theorem C7_codec_magic_resync (c : MessageCodec)
    (h8 : 8 ≤ c.buffer.length) (hm : startsWithMagic c.buffer = false) :
    (c.decode).1 = .error .invalidMagic ∧
    ((∃ p, (c.decode).2.buffer = c.buffer.drop p ∧
        startsWithMagic (c.buffer.drop p) = true ∧
        ∀ q < p, startsWithMagic (c.buffer.drop q) = false) ∨
     ((c.decode).2.buffer = [] ∧
        ∀ q, startsWithMagic (c.buffer.drop q) = false)) := by
  have hH : HEADER_SIZE = 8 := rfl
  have hmagic : ¬(c.buffer.getD 0 0 = MAGIC0 ∧ c.buffer.getD 1 0 = MAGIC1) := by
    rw [getD_magic_iff c.buffer (by omega)]
    simp [hm]
  rw [MessageCodec.decode]
  simp only []
  rw [if_neg (by omega), if_pos hmagic]
  cases hfm : findMagic c.buffer with
  | some p =>
      refine ⟨rfl, Or.inl ⟨p, rfl, ?_, ?_⟩⟩
      · exact (findMagic_some_spec c.buffer p hfm).1
      · exact (findMagic_some_spec c.buffer p hfm).2
  | none =>
      exact ⟨rfl, Or.inr ⟨rfl, findMagic_none_spec c.buffer hfm⟩⟩

/-! ### C8: a message split across three `feed` calls -/

theorem codec_decode_proper_prefix (m : Message) (bs q : List Byte)
    (henc : encode m = .ok bs) (hpre : q <+: bs)
    (hlt : q.length < bs.length) :
    MessageCodec.decode ⟨q⟩ = (.ok Option.none, ⟨q⟩) := by
  obtain ⟨hL, hbs⟩ := encode_ok_shape m bs henc
  have hH : HEADER_SIZE = 8 := rfl
  have hM : MAX_MESSAGE_SIZE = 16777216 := rfl
  have hL32 : (serializeMsg m).length < 4294967296 := by omega
  have hlen : bs.length = 8 + (serializeMsg m).length := by
    subst hbs
    simp [u32be]
    omega
  by_cases h8 : q.length < 8
  · rw [MessageCodec.decode]
    simp only []
    rw [if_pos (by omega)]
  · obtain ⟨t, ht⟩ := hpre
    have hget : ∀ i, i < 8 → q.getD i 0 = bs.getD i 0 := by
      intro i hi
      rw [← ht, List.getD_append]
      omega
    have hmagicbs : bs.getD 0 0 = MAGIC0 ∧ bs.getD 1 0 = MAGIC1 := by
      subst hbs
      simp [List.getD_cons_zero, List.getD_cons_succ]
    have hlf : lenField q = (serializeMsg m).length := by
      have hlfbs : lenField bs = (serializeMsg m).length := by
        subst hbs
        exact lenField_encoded _ _ _ _ _ hL32 _
      rw [← hlfbs]
      unfold lenField
      rw [hget 4 (by omega), hget 5 (by omega), hget 6 (by omega),
        hget 7 (by omega)]
    rw [MessageCodec.decode]
    simp only []
    rw [if_neg (by omega)]
    rw [if_neg (by
      rw [hget 0 (by omega), hget 1 (by omega)]
      exact not_not.mpr ⟨hmagicbs.1, hmagicbs.2⟩)]
    simp only [hlf]
    rw [if_neg (by omega)]
    rw [if_pos (by omega)]

/-- **C8.**  Splitting `encode m` into three consecutive parts fed by
three `feed` calls to a fresh `MessageCodec`: `decode()` returns `None`
after each feed that leaves fewer than header-plus-length bytes buffered,
and after the third feed it returns `Some m` exactly once, leaving the
buffer empty (`buffer_len() == 0`). -/
theorem C8_codec_three_feeds (m : Message) (bs p1 p2 p3 : List Byte)
    (hwf : msgWF m = true) (henc : encode m = .ok bs)
    (hsplit : p1 ++ p2 ++ p3 = bs) :
    (p1.length < bs.length →
       (MessageCodec.new.feed p1).decode =
         (.ok Option.none, MessageCodec.new.feed p1)) ∧
    ((p1 ++ p2).length < bs.length →
       ((MessageCodec.new.feed p1).feed p2).decode =
         (.ok Option.none, (MessageCodec.new.feed p1).feed p2)) ∧
    (((MessageCodec.new.feed p1).feed p2).feed p3).decode =
      (.ok (Option.some m), ⟨[]⟩) ∧
    ((((MessageCodec.new.feed p1).feed p2).feed p3).decode).2.buffer_len = 0 ∧
    MessageCodec.decode ⟨[]⟩ = (.ok Option.none, ⟨[]⟩) := by
  have hb1 : (MessageCodec.new.feed p1).buffer = p1 := by
    simp [MessageCodec.new, MessageCodec.feed]
  have hb2 : ((MessageCodec.new.feed p1).feed p2).buffer = p1 ++ p2 := by
    simp [MessageCodec.new, MessageCodec.feed]
  have hb3 : (((MessageCodec.new.feed p1).feed p2).feed p3).buffer = bs := by
    simp [MessageCodec.new, MessageCodec.feed, ← hsplit]
  have hfull : ((((MessageCodec.new.feed p1).feed p2).feed p3)).decode =
      (.ok (Option.some m), ⟨[]⟩) := by
    have : (((MessageCodec.new.feed p1).feed p2).feed p3) =
        (⟨bs⟩ : MessageCodec) := by
      cases h : (((MessageCodec.new.feed p1).feed p2).feed p3) with
      | mk b => rw [h] at hb3; simp at hb3; rw [hb3]
    rw [this]
    exact codec_decode_full m bs hwf henc
  refine ⟨?_, ?_, hfull, ?_, ?_⟩
  · intro hlt
    have h1 : (MessageCodec.new.feed p1) = (⟨p1⟩ : MessageCodec) := by
      cases h : (MessageCodec.new.feed p1) with
      | mk b => rw [h] at hb1; simp at hb1; rw [hb1]
    rw [h1]
    exact codec_decode_proper_prefix m bs p1 henc
      ⟨p2 ++ p3, by rw [← List.append_assoc, hsplit]⟩ hlt
  · intro hlt
    have h2 : ((MessageCodec.new.feed p1).feed p2) = (⟨p1 ++ p2⟩ : MessageCodec) := by
      cases h : ((MessageCodec.new.feed p1).feed p2) with
      | mk b => rw [h] at hb2; simp at hb2; rw [hb2]
    rw [h2]
    exact codec_decode_proper_prefix m bs (p1 ++ p2) henc
      ⟨p3, hsplit⟩ hlt
  · rw [hfull]
    rfl
  · rw [MessageCodec.decode]
    simp [HEADER_SIZE]

/-! ### Concrete instances for the codec theorems -/

def c1ExMsg : Message := .heartbeat (12345 : U64)

def c1ExBytes : List Byte :=
  [76, 77, 1, 3, 0, 0, 0, 12, 3, 0, 0, 0, 57, 48, 0, 0, 0, 0, 0, 0]

/-- Witness: `C1_protocol_roundtrip` at `Heartbeat { timestamp: 12345 }`. -/
theorem C1_protocol_roundtrip_witness :
    msgWF c1ExMsg = true ∧ encode c1ExMsg = .ok c1ExBytes ∧
    (decode c1ExBytes = .ok c1ExMsg ∧
     (MessageCodec.new.feed c1ExBytes).decode =
       (.ok (Option.some c1ExMsg), ⟨[]⟩)) :=
  ⟨by decide, by rfl,
   C1_protocol_roundtrip c1ExMsg c1ExBytes (by decide) (by rfl)⟩

def c7ExCodec : MessageCodec := ⟨[0, 0, 0, 0, 0, 0, 0, 0]⟩

/-- Witness: `C7_codec_magic_resync` on an 8-byte all-zero buffer. -/
theorem C7_codec_magic_resync_witness :
    8 ≤ c7ExCodec.buffer.length ∧ startsWithMagic c7ExCodec.buffer = false ∧
    ((c7ExCodec.decode).1 = .error .invalidMagic ∧
     ((∃ p, (c7ExCodec.decode).2.buffer = c7ExCodec.buffer.drop p ∧
         startsWithMagic (c7ExCodec.buffer.drop p) = true ∧
         ∀ q < p, startsWithMagic (c7ExCodec.buffer.drop q) = false) ∨
      ((c7ExCodec.decode).2.buffer = [] ∧
         ∀ q, startsWithMagic (c7ExCodec.buffer.drop q) = false))) :=
  ⟨by decide, by decide, C7_codec_magic_resync c7ExCodec (by decide) (by decide)⟩

def c8P1 : List Byte := [76, 77, 1]
def c8P2 : List Byte := [3, 0, 0, 0, 12, 3, 0, 0, 0]
def c8P3 : List Byte := [57, 48, 0, 0, 0, 0, 0, 0]

/-- Witness: `C8_codec_three_feeds` at the heartbeat example split 3/9/8. -/
theorem C8_codec_three_feeds_witness :
    msgWF c1ExMsg = true ∧ encode c1ExMsg = .ok c1ExBytes ∧
    c8P1 ++ c8P2 ++ c8P3 = c1ExBytes ∧
    ((c8P1.length < c1ExBytes.length →
       (MessageCodec.new.feed c8P1).decode =
         (.ok Option.none, MessageCodec.new.feed c8P1)) ∧
    ((c8P1 ++ c8P2).length < c1ExBytes.length →
       ((MessageCodec.new.feed c8P1).feed c8P2).decode =
         (.ok Option.none, (MessageCodec.new.feed c8P1).feed c8P2)) ∧
    (((MessageCodec.new.feed c8P1).feed c8P2).feed c8P3).decode =
      (.ok (Option.some c1ExMsg), ⟨[]⟩) ∧
    ((((MessageCodec.new.feed c8P1).feed c8P2).feed c8P3).decode).2.buffer_len
      = 0 ∧
    MessageCodec.decode ⟨[]⟩ = (.ok Option.none, ⟨[]⟩)) :=
  ⟨by decide, by rfl, by decide,
   C8_codec_three_feeds c1ExMsg c1ExBytes c8P1 c8P2 c8P3
     (by decide) (by rfl) (by decide)⟩

/-! ### `encoder/scaler.rs` — `FrameScaler` -/

/-- Maximum dimensions supported by OpenH264. -/
def OPENH264_MAX_WIDTH : Nat := 3840
def OPENH264_MAX_HEIGHT : Nat := 2160

inductive AdaptMode
  | noAdapt
  | cropHeight
  | cropWidth
  | cropBoth
  | downscale
deriving DecidableEq

structure FrameScaler where
  src_width : Nat
  src_height : Nat
  dst_width : Nat
  dst_height : Nat
  needs_scaling : Bool
  mode : AdaptMode
deriving DecidableEq

/-- `x & !1` on a `u32`: clear the lowest bit. -/
def evenClamp (n : Nat) : Nat := n - n % 2

/-- `FrameScaler::new`: fit dimensions within OpenH264 limits by
even-clamping and cropping. -/
def FrameScaler.new (src_width src_height : Nat) : FrameScaler :=
  let width_exceeds := decide (src_width > OPENH264_MAX_WIDTH)
  let height_exceeds := decide (src_height > OPENH264_MAX_HEIGHT)
  let r : Nat × Nat × AdaptMode :=
    match width_exceeds, height_exceeds with
    | false, false => (evenClamp src_width, evenClamp src_height, .noAdapt)
    | false, true =>
        (evenClamp src_width, evenClamp OPENH264_MAX_HEIGHT, .cropHeight)
    | true, false =>
        (evenClamp OPENH264_MAX_WIDTH, evenClamp src_height, .cropWidth)
    | true, true =>
        (evenClamp OPENH264_MAX_WIDTH, evenClamp OPENH264_MAX_HEIGHT, .cropBoth)
  let dst_width := r.1
  let dst_height := r.2.1
  let mode := r.2.2
  { src_width := src_width
    src_height := src_height
    dst_width := dst_width
    dst_height := dst_height
    needs_scaling := decide (dst_width ≠ src_width ∨ dst_height ≠ src_height)
    mode := mode }

/-- `FrameScaler::new_with_target`: fit-inside downscale.  The `f64`
arithmetic is modelled exactly over `ℚ`; `(x as f64 * scale) as u32` is
the floor (the product is nonnegative).  A `ℚ` division by zero gives
`0` where Rust produces `NaN`; in both semantics the constructed
dimensions are even and within the OpenH264 limits (see `C4`). -/
def FrameScaler.new_with_target (src_width src_height target_width target_height : Nat) :
    FrameScaler :=
  let max_w := min (min target_width src_width) OPENH264_MAX_WIDTH
  let max_h := min (min target_height src_height) OPENH264_MAX_HEIGHT
  let scale_w : ℚ := (max_w : ℚ) / (src_width : ℚ)
  let scale_h : ℚ := (max_h : ℚ) / (src_height : ℚ)
  let scale : ℚ := min (min scale_w scale_h) 1
  let dst_width := evenClamp (Int.toNat ⌊(src_width : ℚ) * scale⌋)
  let dst_height := evenClamp (Int.toNat ⌊(src_height : ℚ) * scale⌋)
  let needs_scaling := decide (dst_width ≠ src_width ∨ dst_height ≠ src_height)
  { src_width := src_width
    src_height := src_height
    dst_width := dst_width
    dst_height := dst_height
    needs_scaling := needs_scaling
    mode := if needs_scaling then .downscale else .noAdapt }

/-- `FrameScaler::crop_width`: copy each source row truncated to
`dst_width` pixels. -/
def FrameScaler.crop_width (s : FrameScaler) (src : List Byte) : List Byte :=
  ((List.range s.src_height).map (fun y =>
    ((src.drop (y * (s.src_width * 4))).take (s.dst_width * 4)))).flatten

/-- `FrameScaler::crop_both`: first `dst_height` rows truncated to
`dst_width` pixels. -/
def FrameScaler.crop_both (s : FrameScaler) (src : List Byte) : List Byte :=
  ((List.range s.dst_height).map (fun y =>
    ((src.drop (y * (s.src_width * 4))).take (s.dst_width * 4)))).flatten

/-- `FrameScaler::downscale_nearest`: nearest-neighbour resample. -/
def FrameScaler.downscale_nearest (s : FrameScaler) (src : List Byte) :
    List Byte :=
  ((List.range s.dst_height).map (fun dy =>
    ((List.range s.dst_width).map (fun dx =>
      ((src.drop ((dy * s.src_height / s.dst_height) * (s.src_width * 4)
                  + (dx * s.src_width / s.dst_width) * 4)).take 4))).flatten)).flatten

/-- `FrameScaler::scale`. -/
def FrameScaler.scale (s : FrameScaler) (bgra : List Byte) : List Byte :=
  match s.mode with
  | .noAdapt => bgra
  | .cropHeight => bgra.take (s.src_width * 4 * s.dst_height)
  | .cropWidth => s.crop_width bgra
  | .cropBoth => s.crop_both bgra
  | .downscale => s.downscale_nearest bgra

theorem evenClamp_even (n : Nat) : evenClamp n % 2 = 0 := by
  unfold evenClamp
  omega

theorem evenClamp_le (n : Nat) : evenClamp n ≤ n := by
  unfold evenClamp
  omega

theorem floorScale_le (w m : Nat) (sc : ℚ) (hsc : sc ≤ (m : ℚ) / (w : ℚ)) :
    Int.toNat ⌊(w : ℚ) * sc⌋ ≤ m := by
  rcases Nat.eq_zero_or_pos w with hw | hw
  · subst hw
    simp
  · have hw' : (0 : ℚ) < (w : ℚ) := by exact_mod_cast hw
    have hmul : (w : ℚ) * sc ≤ (w : ℚ) * ((m : ℚ) / (w : ℚ)) :=
      mul_le_mul_of_nonneg_left hsc (le_of_lt hw')
    have hcancel : (w : ℚ) * ((m : ℚ) / (w : ℚ)) = (m : ℚ) := by
      field_simp
    rw [hcancel] at hmul
    have hfloor : ⌊(w : ℚ) * sc⌋ ≤ (m : Int) := by
      have := Int.floor_le_floor hmul
      rwa [Int.floor_natCast] at this
    exact Int.toNat_le.mpr hfloor

/-- **C4.**  Every `FrameScaler` built by either constructor has even
`dst_width`/`dst_height` with `dst_width ≤ 3840` and `dst_height ≤ 2160`. -/
theorem C4_scaler_dims_even_bounded (w h tw th : Nat) :
    ((FrameScaler.new w h).dst_width % 2 = 0 ∧
     (FrameScaler.new w h).dst_height % 2 = 0 ∧
     (FrameScaler.new w h).dst_width ≤ 3840 ∧
     (FrameScaler.new w h).dst_height ≤ 2160) ∧
    ((FrameScaler.new_with_target w h tw th).dst_width % 2 = 0 ∧
     (FrameScaler.new_with_target w h tw th).dst_height % 2 = 0 ∧
     (FrameScaler.new_with_target w h tw th).dst_width ≤ 3840 ∧
     (FrameScaler.new_with_target w h tw th).dst_height ≤ 2160) := by
  constructor
  · have hW : OPENH264_MAX_WIDTH = 3840 := rfl
    have hH : OPENH264_MAX_HEIGHT = 2160 := rfl
    by_cases hw : w > OPENH264_MAX_WIDTH <;> by_cases hh : h > OPENH264_MAX_HEIGHT <;>
      · simp only [FrameScaler.new, hw, hh, decide_True, decide_False,
          eq_self_iff_true, evenClamp]
        omega
  · set max_w := min (min tw w) OPENH264_MAX_WIDTH with hmw
    set max_h := min (min th h) OPENH264_MAX_HEIGHT with hmh
    set sc : ℚ := min (min ((max_w : ℚ) / (w : ℚ)) ((max_h : ℚ) / (h : ℚ))) 1
      with hsc
    have hproj_w : (FrameScaler.new_with_target w h tw th).dst_width =
        evenClamp (Int.toNat ⌊(w : ℚ) * sc⌋) := rfl
    have hproj_h : (FrameScaler.new_with_target w h tw th).dst_height =
        evenClamp (Int.toNat ⌊(h : ℚ) * sc⌋) := rfl
    rw [hproj_w, hproj_h]
    refine ⟨evenClamp_even _, evenClamp_even _, ?_, ?_⟩
    · have h1 : Int.toNat ⌊(w : ℚ) * sc⌋ ≤ max_w :=
        floorScale_le w max_w sc
          (le_trans (min_le_left _ _) (min_le_left _ _))
      have h2 : max_w ≤ 3840 := min_le_right _ _
      have := evenClamp_le (Int.toNat ⌊(w : ℚ) * sc⌋)
      omega
    · have h1 : Int.toNat ⌊(h : ℚ) * sc⌋ ≤ max_h :=
        floorScale_le h max_h sc
          (le_trans (min_le_left _ _) (min_le_right _ _))
      have h2 : max_h ≤ 2160 := min_le_right _ _
      have := evenClamp_le (Int.toNat ⌊(h : ℚ) * sc⌋)
      omega

/-- **C5** (code bug).  `FrameScaler::new(3457, 2169)` reports
`dst == (3456, 2160)` but selects `CropHeight` (the width does not exceed
3840, so the even-clamp of the width is never applied to the pixel data):
`scale` returns `3457 * 2160 * 4` bytes whose rows are still 3457 pixels
wide, not the claimed `dst_width * dst_height * 4 = 3456 * 2160 * 4`. -/
theorem C5_scaler_3457x2169_bug (bgra : List Byte)
    (hlen : bgra.length = 3457 * 2169 * 4) :
    (FrameScaler.new 3457 2169).dst_width = 3456 ∧
    (FrameScaler.new 3457 2169).dst_height = 2160 ∧
    (FrameScaler.new 3457 2169).mode = .cropHeight ∧
    ((FrameScaler.new 3457 2169).scale bgra).length = 3457 * 2160 * 4 ∧
    ((FrameScaler.new 3457 2169).scale bgra).length ≠
      (FrameScaler.new 3457 2169).dst_width *
      (FrameScaler.new 3457 2169).dst_height * 4 := by
  have hscale : (FrameScaler.new 3457 2169).scale bgra =
      bgra.take (3457 * 4 * 2160) := rfl
  have hlen2 : ((FrameScaler.new 3457 2169).scale bgra).length
      = 3457 * 2160 * 4 := by
    rw [hscale, List.length_take, hlen]
    norm_num
  refine ⟨rfl, rfl, rfl, hlen2, ?_⟩
  rw [hlen2]
  have hw : (FrameScaler.new 3457 2169).dst_width = 3456 := rfl
  have hh : (FrameScaler.new 3457 2169).dst_height = 2160 := rfl
  rw [hw, hh]
  norm_num

/-- Witness: `C5_scaler_3457x2169_bug` on an all-zero source frame. -/
theorem C5_scaler_3457x2169_bug_witness :
    (List.replicate (3457 * 2169 * 4) (0 : Byte)).length = 3457 * 2169 * 4 ∧
    ((FrameScaler.new 3457 2169).dst_width = 3456 ∧
     (FrameScaler.new 3457 2169).dst_height = 2160 ∧
     (FrameScaler.new 3457 2169).mode = .cropHeight ∧
     ((FrameScaler.new 3457 2169).scale
        (List.replicate (3457 * 2169 * 4) (0 : Byte))).length
        = 3457 * 2160 * 4 ∧
     ((FrameScaler.new 3457 2169).scale
        (List.replicate (3457 * 2169 * 4) (0 : Byte))).length ≠
       (FrameScaler.new 3457 2169).dst_width *
       (FrameScaler.new 3457 2169).dst_height * 4) :=
  ⟨List.length_replicate _ _,
   C5_scaler_3457x2169_bug _ (List.length_replicate _ _)⟩

/-! ### `encoder/software.rs` — keyframe detection

`SoftwareEncoder::encode` obtains the bitstream bytes from the opaque
OpenH264 encoder and classifies them:
`frame_type = if is_keyframe(&encoded_data) { KeyFrame } else { Delta }`.
The bitstream itself is external input here; the classification is what
is embedded. -/

/-- `encoder/mod.rs` `FrameType` (`KeyFrame` / `Delta`). -/
inductive EncFrameType
  | keyFrame
  | delta
deriving DecidableEq

/-- `SoftwareEncoder::is_keyframe`: skip one leading start code
(4-byte `00 00 00 01` or 3-byte `00 00 01`), then test the single NAL
type byte found there for 5 (IDR) or 7 (SPS). -/
def is_keyframe (data : List Byte) : Bool :=
  if data.length < 5 then false
  else
    let offset : Nat :=
      if 4 < data.length ∧ (data.getD 0 0).val = 0 ∧ (data.getD 1 0).val = 0
      then
        if (data.getD 2 0).val = 0 ∧ (data.getD 3 0).val = 1 then 4
        else if (data.getD 2 0).val = 1 then 3
        else 0
      else 0
    if offset < data.length then
      decide ((data.getD offset 0).val % 32 = 5 ∨
              (data.getD offset 0).val % 32 = 7)
    else false

/-- The frame kind `SoftwareEncoder::encode` reports for a given
bitstream (`software.rs:209-214`). -/
def reportedFrameType (encoded : List Byte) : EncFrameType :=
  if is_keyframe encoded then .keyFrame else .delta

/-- Claim-side rule (from the spec's words): a keyframe NAL unit (type 5
or 7) introduced by a start code begins at this position.  Checking the
3-byte code `00 00 01` at every position also captures 4-byte codes,
whose last three bytes are a 3-byte code. -/
def keyNalAtHead : List Byte → Bool
  | a :: b :: c :: x :: _ =>
      decide (a.val = 0 ∧ b.val = 0 ∧ c.val = 1 ∧
              (x.val % 32 = 5 ∨ x.val % 32 = 7))
  | _ => false

/-- Claim-side rule (from the spec's words): scanning the whole
byte-stream, a NAL unit of type 5 (IDR) or 7 (SPS) occurs somewhere. -/
def specScanKeyframe : List Byte → Bool
  | [] => false
  | b :: rest => keyNalAtHead (b :: rest) || specScanKeyframe rest

def c3Cex : List Byte := [0, 0, 0, 1, 65, 0, 0, 0, 1, 101]

/-- **C3 counterexample.**  The bitstream
`00 00 00 01 41 | 00 00 00 01 65` (a non-IDR slice NAL followed by an
IDR NAL) contains a type-5 NAL unit, yet the encoder reports `Delta`:
only the first NAL unit is inspected, the stream is not scanned. -/
theorem C3_counterexample :
    ¬(reportedFrameType c3Cex = .keyFrame ↔ specScanKeyframe c3Cex = true) := by
  decide

/-- The number of bytes of the single leading start code `is_keyframe`
skips (4, 3, or 0). -/
def leadingStartCodeLen : List Byte → Nat
  | a :: b :: c :: d :: _ =>
      if a.val = 0 ∧ b.val = 0 ∧ c.val = 0 ∧ d.val = 1 then 4
      else if a.val = 0 ∧ b.val = 0 ∧ c.val = 1 then 3
      else 0
  | _ => 0

/-- Amended claim-side rule: the stream has at least 5 bytes and the
byte after the single leading start code (or the first byte when there
is none) has NAL type 5 or 7. -/
def firstNalKeyframe (bs : List Byte) : Bool :=
  decide (5 ≤ bs.length) &&
  decide ((bs.getD (leadingStartCodeLen bs) 0).val % 32 = 5 ∨
          (bs.getD (leadingStartCodeLen bs) 0).val % 32 = 7)

/-- **C3 (amended).**  The reported kind is `KeyFrame` iff the FIRST NAL
unit of the stream (the byte following a single leading 4- or 3-byte
start code, or the first byte if none) has type 5 or 7; streams shorter
than 5 bytes are `Delta`. -/
theorem C3_keyframe_first_nal (bs : List Byte) :
    reportedFrameType bs = .keyFrame ↔ firstNalKeyframe bs = true := by
  rcases bs with _ | ⟨a, _ | ⟨b, _ | ⟨c, _ | ⟨d, _ | ⟨e, rest⟩⟩⟩⟩⟩
  · decide
  · simp [reportedFrameType, is_keyframe, firstNalKeyframe]
  · simp [reportedFrameType, is_keyframe, firstNalKeyframe]
  · simp [reportedFrameType, is_keyframe, firstNalKeyframe]
  · simp [reportedFrameType, is_keyframe, firstNalKeyframe]
  simp only [reportedFrameType, is_keyframe, firstNalKeyframe,
    leadingStartCodeLen, List.length_cons, List.getD_cons_zero,
    List.getD_cons_succ]
  have hlen : ¬(rest.length + 1 + 1 + 1 + 1 + 1 < 5) := by omega
  have hlen2 : (4 < rest.length + 1 + 1 + 1 + 1 + 1) := by omega
  rw [if_neg hlen]
  simp only [hlen2, true_and]
  by_cases h0 : a.val = 0 <;> by_cases h1 : b.val = 0 <;>
    by_cases h2 : c.val = 0 <;> by_cases h3 : c.val = 1 <;>
    by_cases h4 : d.val = 1 <;>
    simp [h0, h1, h2, h3, h4, List.getD_cons_zero, List.getD_cons_succ] <;>
    omega

/-! ### `renderer/window.rs` — the frame command channel

`RenderWindow::create` builds an UNBOUNDED crossbeam channel for
commands; `RenderWindowHandle::render_frame` checks `is_open` and sends
`WindowCommand::RenderFrame` into it.  The macOS render loop drains all
pending commands each iteration and uploads only the newest frame seen
before any `Close` command, counting the earlier ones as stale
(`window.rs:345-381`).  The channel is modelled as the list of queued
commands. -/

inductive FrameFormat
  | bgra
  | yuv420
deriving DecidableEq

/-- `renderer/mod.rs` `RenderFrame`. -/
structure RenderFrame where
  width : Nat
  height : Nat
  format : FrameFormat
  data : List Byte
  strides : Option (Nat × Nat × Nat)
deriving DecidableEq

inductive WindowCommand
  | renderFrame (frame : RenderFrame)
  | setTitle (title : RStr)
  | close
deriving DecidableEq

/-- The channel and open-flag state a `RenderWindowHandle` writes to. -/
structure WindowChannel where
  queue : List WindowCommand
  is_open : Bool
deriving DecidableEq

inductive RendererError
  | windowError
deriving DecidableEq

/-- `RenderWindow::create`: fresh unbounded channel, `is_open = true`. -/
def windowCreate : WindowChannel := ⟨[], true⟩

/-- `RenderWindowHandle::render_frame`: fail when closed, otherwise send
the frame into the (unbounded) command channel. -/
def render_frame (s : WindowChannel) (f : RenderFrame) :
    Except RendererError Unit × WindowChannel :=
  if s.is_open = false then (.error .windowError, s)
  else (.ok (), ⟨s.queue ++ [.renderFrame f], s.is_open⟩)

/-- Number of frame commands currently queued. -/
def countFrames (q : List WindowCommand) : Nat :=
  q.countP (fun c => match c with
    | .renderFrame _ => true
    | _ => false)

/-- One iteration of the macOS render loop's drain
(`while let Ok(cmd) = command_rx.try_recv()`): returns the latest frame,
the stale count, whether the window is still open, and the commands left
in the channel (a `Close` breaks out of the drain). -/
def drainCommands : List WindowCommand → Option RenderFrame → Nat →
    Option RenderFrame × Nat × Bool × List WindowCommand
  | [], latest, stale => (latest, stale, true, [])
  | .renderFrame f :: rest, latest, stale =>
      drainCommands rest (some f) (if latest.isSome then stale + 1 else stale)
  | .setTitle _ :: rest, latest, stale => drainCommands rest latest stale
  | .close :: rest, latest, stale => (latest, stale, false, rest)

/-- The frames queued before the first `Close` command. -/
def framesBefore : List WindowCommand → List RenderFrame
  | [] => []
  | .renderFrame f :: rest => f :: framesBefore rest
  | .setTitle _ :: rest => framesBefore rest
  | .close :: _ => []

def c6Frame (k : Nat) : RenderFrame := ⟨k, k, .bgra, [], Option.none⟩

/-- **C6 counterexample.**  The command channel is unbounded: after two
`render_frame` calls on a fresh window, two frames are queued at once,
so the queue does not hold at most one pending frame and no prior frame
was dropped at ingress. -/
theorem C6_counterexample :
    countFrames ((render_frame
      ((render_frame windowCreate (c6Frame 1)).2) (c6Frame 2)).2.queue) = 2 ∧
    ¬(countFrames ((render_frame
      ((render_frame windowCreate (c6Frame 1)).2) (c6Frame 2)).2.queue) ≤ 1) := by
  decide

theorem drainCommands_spec (q : List WindowCommand) (acc : Option RenderFrame)
    (stale : Nat) :
    (drainCommands q acc stale).1 =
      (acc.toList ++ framesBefore q).getLast? ∧
    (drainCommands q acc stale).2.1 =
      stale + ((acc.toList ++ framesBefore q).length - 1) := by
  induction q generalizing acc stale with
  | nil =>
      cases acc <;> simp [drainCommands, framesBefore]
  | cons cmd rest ih =>
      cases cmd with
      | renderFrame f =>
          cases acc with
          | none =>
              have := ih (some f) stale
              simpa [drainCommands, framesBefore] using this
          | some g =>
              have := ih (some f) (stale + 1)
              simp only [drainCommands, Option.isSome_some, if_pos] at this ⊢
              simp only [framesBefore, Option.toList_some] at this ⊢
              refine ⟨this.1, ?_⟩
              rw [this.2]
              simp
              omega
      | setTitle t =>
          have := ih acc stale
          simpa [drainCommands, framesBefore] using this
      | close =>
          cases acc <;> simp [drainCommands, framesBefore]

/-- **C6 (amended).**  `render_frame` on an open window appends to an
unbounded queue (no frame is dropped at ingress), and boundedness to one
frame is enforced at consumption: each render-loop iteration drains the
whole queue, uploads only the newest frame received before any `Close`,
and drops the remaining (stale) ones. -/
theorem C6_unbounded_queue_drain_latest :
    (∀ (q : List WindowCommand) (f : RenderFrame),
       (render_frame ⟨q, true⟩ f).2.queue = q ++ [.renderFrame f]) ∧
    (∀ q : List WindowCommand,
       (drainCommands q Option.none 0).1 = (framesBefore q).getLast? ∧
       (drainCommands q Option.none 0).2.1 = (framesBefore q).length - 1) := by
  constructor
  · intro q f
    rfl
  · intro q
    have := drainCommands_spec q Option.none 0
    simpa using this

/-! ### `network/quic.rs` — connection registry and `send_to_peer`

Registry keys are Rust `String`s in `ip:port` form, modelled as
`List Char`; `starts_with(format!("{}:", ip))` is `List.isPrefixOf`.
`QuicConnection::is_alive` (`connection.close_reason().is_none()`) is an
abstract boolean of the connection.  The registry (`CONNECTIONS`) is the
map state a `send_to_peer` call observes; the actual stream open/write
of the alive path is asynchronous I/O beyond the embedding, so the step
function only reports WHICH path the call takes and the registry it
leaves behind. -/

/-- A registry entry's connection, abstracted to its liveness. -/
structure QuicConnection where
  is_alive : Bool
deriving DecidableEq

abbrev ConnRegistry := List (List Char × QuicConnection)

/-- `get_connection`: exact-key lookup. -/
def get_connection (reg : ConnRegistry) (id : List Char) :
    Option QuicConnection :=
  (reg.find? (fun e => e.1 = id)).map (·.2)

/-- `find_connection`: exact match first, then the first key with prefix
`"{peer_id}:"`. -/
def find_connection (reg : ConnRegistry) (peer_id : List Char) :
    Option QuicConnection :=
  match get_connection reg peer_id with
  | some c => some c
  | Option.none =>
      (reg.find? (fun e => (peer_id ++ [':']).isPrefixOf e.1)).map (·.2)

/-- `remove_connection_by_ip`:
`retain(|key, _| !key.starts_with("{ip}:") && key != ip)`. -/
def remove_connection_by_ip (reg : ConnRegistry) (ip : List Char) :
    ConnRegistry :=
  reg.filter (fun e =>
    !((ip ++ [':']).isPrefixOf e.1) && !(e.1 = ip : Bool))

/-- `cleanup_dead_connections`: drop every entry whose connection is not
alive (the pre-send sweep of `broadcast_message`). -/
def cleanup_dead_connections (reg : ConnRegistry) : ConnRegistry :=
  reg.filter (fun e => e.2.is_alive)

/-- Which path a `send_to_peer` call takes. -/
inductive SendOutcome
  | peerNotFound
  | deadRemoved
  | sendAttempted
deriving DecidableEq

/-- `send_to_peer`'s registry effect: look up the peer; a dead
connection is pruned and the call fails before any send; only an alive
connection reaches the send path (stream open / write / finish, not
modelled). -/
def send_to_peer_step (reg : ConnRegistry) (peer_id : List Char) :
    SendOutcome × ConnRegistry :=
  match find_connection reg peer_id with
  | Option.none => (.peerNotFound, reg)
  | some conn =>
      if conn.is_alive = false then
        (.deadRemoved, remove_connection_by_ip reg peer_id)
      else (.sendAttempted, reg)

theorem find_connection_key_matches (reg : ConnRegistry)
    (peer_id : List Char) (c : QuicConnection)
    (h : find_connection reg peer_id = some c) :
    ∃ k, (k, c) ∈ reg ∧ (k = peer_id ∨ (peer_id ++ [':']).isPrefixOf k) := by
  unfold find_connection get_connection at h
  cases hf : reg.find? (fun e => e.1 = peer_id) with
  | some e =>
      rw [hf] at h
      simp at h
      have hmem := List.mem_of_find?_eq_some hf
      have hkey := List.find?_some hf
      simp only [decide_eq_true_eq] at hkey
      refine ⟨e.1, ?_, Or.inl hkey⟩
      rw [← h]
      exact hmem
  | none =>
      rw [hf] at h
      cases hf2 : reg.find? (fun e => (peer_id ++ [':']).isPrefixOf e.1) with
      | none => rw [hf2] at h; simp at h
      | some e =>
          rw [hf2] at h
          simp at h
          have hmem := List.mem_of_find?_eq_some hf2
          have hkey := List.find?_some hf2
          simp only [decide_eq_true_eq] at hkey
          refine ⟨e.1, ?_, Or.inr hkey⟩
          rw [← h]
          exact hmem

theorem remove_connection_by_ip_no_match (reg : ConnRegistry)
    (ip k : List Char) (c : QuicConnection)
    (h : (k, c) ∈ remove_connection_by_ip reg ip) :
    ¬((ip ++ [':']).isPrefixOf k) ∧ k ≠ ip := by
  unfold remove_connection_by_ip at h
  have := List.of_mem_filter h
  simp only [Bool.and_eq_true, Bool.not_eq_true'] at this
  constructor
  · intro hpre
    rw [hpre] at this
    exact absurd this.1 (by simp)
  · intro hk
    have := this.2
    simp [hk] at this

theorem find_connection_none_of_no_match (reg : ConnRegistry)
    (peer_id : List Char)
    (h : ∀ k c, (k, c) ∈ reg →
      ¬((peer_id ++ [':']).isPrefixOf k) ∧ k ≠ peer_id) :
    find_connection reg peer_id = Option.none := by
  unfold find_connection get_connection
  cases hf : reg.find? (fun e => e.1 = peer_id) with
  | some e =>
      exfalso
      have hkey := List.find?_some hf
      have hmem := List.mem_of_find?_eq_some hf
      simp only [decide_eq_true_eq] at hkey
      exact (h e.1 e.2 (by simpa using hmem)).2 hkey
  | none =>
      cases hf2 : reg.find? (fun e => (peer_id ++ [':']).isPrefixOf e.1) with
      | some e =>
          exfalso
          have hkey := List.find?_some hf2
          have hmem := List.mem_of_find?_eq_some hf2
          exact (h e.1 e.2 (by simpa using hmem)).1 hkey
      | none => simp

/-- **C9.**  A `send_to_peer` call that finds a dead connection
(`is_alive() == false`) prunes it from the registry and fails without
reaching the send path: afterwards no entry matching the peer id remains
and a repeated lookup finds nothing; moreover the dead connection is
never the one sent on (`sendAttempted` implies the found connection is
alive), and the pre-send sweep (`cleanup_dead_connections`, run by
`broadcast_message`) leaves only alive connections in the registry. -/
theorem C9_dead_connection_pruned (reg : ConnRegistry)
    (peer_id : List Char) (conn : QuicConnection)
    (hfind : find_connection reg peer_id = some conn)
    (hdead : conn.is_alive = false) :
    (send_to_peer_step reg peer_id).1 = .deadRemoved ∧
    (∀ k c, (k, c) ∈ (send_to_peer_step reg peer_id).2 →
       ¬((peer_id ++ [':']).isPrefixOf k) ∧ k ≠ peer_id) ∧
    find_connection (send_to_peer_step reg peer_id).2 peer_id
      = Option.none ∧
    (∀ reg2 pid2 c2, (send_to_peer_step reg2 pid2).1 = .sendAttempted →
       find_connection reg2 pid2 = some c2 → c2.is_alive = true) ∧
    (∀ k c, (k, c) ∈ cleanup_dead_connections reg → c.is_alive = true) := by
  have hstep : send_to_peer_step reg peer_id =
      (.deadRemoved, remove_connection_by_ip reg peer_id) := by
    unfold send_to_peer_step
    rw [hfind]
    simp [hdead]
  refine ⟨by rw [hstep], ?_, ?_, ?_, ?_⟩
  · intro k c hmem
    rw [hstep] at hmem
    exact remove_connection_by_ip_no_match reg peer_id k c hmem
  · rw [hstep]
    exact find_connection_none_of_no_match _ _
      (fun k c hm => remove_connection_by_ip_no_match reg peer_id k c hm)
  · intro reg2 pid2 c2 houtcome hfind2
    unfold send_to_peer_step at houtcome
    rw [hfind2] at houtcome
    cases halive : c2.is_alive with
    | true => rfl
    | false => simp [halive] at houtcome
  · intro k c hmem
    unfold cleanup_dead_connections at hmem
    have := List.of_mem_filter hmem
    simpa using this

def c9Reg : ConnRegistry := [(['a', ':', '1'], ⟨false⟩)]
def c9Peer : List Char := ['a']
def c9Conn : QuicConnection := ⟨false⟩

/-- Witness: `C9_dead_connection_pruned` on a one-entry registry holding
a dead connection under key `"a:1"`, looked up by bare ip `"a"`. -/
theorem C9_dead_connection_pruned_witness :
    find_connection c9Reg c9Peer = some c9Conn ∧ c9Conn.is_alive = false ∧
    ((send_to_peer_step c9Reg c9Peer).1 = .deadRemoved ∧
     (∀ k c, (k, c) ∈ (send_to_peer_step c9Reg c9Peer).2 →
        ¬((c9Peer ++ [':']).isPrefixOf k) ∧ k ≠ c9Peer) ∧
     find_connection (send_to_peer_step c9Reg c9Peer).2 c9Peer
       = Option.none ∧
     (∀ reg2 pid2 c2, (send_to_peer_step reg2 pid2).1 = .sendAttempted →
        find_connection reg2 pid2 = some c2 → c2.is_alive = true) ∧
     (∀ k c, (k, c) ∈ cleanup_dead_connections c9Reg → c.is_alive = true)) :=
  ⟨by decide, by decide,
   C9_dead_connection_pruned c9Reg c9Peer c9Conn (by decide) (by decide)⟩

/-! ### `commands/mod.rs` — `is_real_lan_ip`, and discovery's LAN filter -/

/-- `std::net::IpAddr`: a V4 address as its four octets, or a V6
address (carried as its 128-bit value; `is_real_lan_ip` never inspects
it). -/
inductive IpAddr
  | v4 (o0 o1 o2 o3 : Byte)
  | v6 (addr : Fin (2 ^ 128))
deriving DecidableEq

/-- `is_real_lan_ip` (`commands/mod.rs:277-310`). -/
def is_real_lan_ip : IpAddr → Bool
  | .v4 o0 o1 _ _ =>
      if o0.val = 198 ∧ (o1.val = 18 ∨ o1.val = 19) then false
      else if o0.val = 100 ∧ o1.val &&& 0xC0 = 64 then false
      else if o0.val = 10 then true
      else if o0.val = 172 ∧ 16 ≤ o1.val ∧ o1.val ≤ 31 then true
      else if o0.val = 192 ∧ o1.val = 168 then true
      else if o0.val = 169 ∧ o1.val = 254 then true
      else false
  | .v6 _ => false

set_option maxRecDepth 4096 in
/-- **C2.**  `is_real_lan_ip` is `false` on 198.18.0.0/15 and
100.64.0.0/10, and `true` on 10.0.0.0/8, 172.16.0.0/12, 192.168.0.0/16
and 169.254.0.0/16. -/
theorem C2_is_real_lan_ip_ranges (o1 o2 o3 : Byte) :
    (o1.val = 18 ∨ o1.val = 19 →
       is_real_lan_ip (.v4 (natByte 198) o1 o2 o3) = false) ∧
    (64 ≤ o1.val → o1.val < 128 →
       is_real_lan_ip (.v4 (natByte 100) o1 o2 o3) = false) ∧
    is_real_lan_ip (.v4 (natByte 10) o1 o2 o3) = true ∧
    (16 ≤ o1.val → o1.val ≤ 31 →
       is_real_lan_ip (.v4 (natByte 172) o1 o2 o3) = true) ∧
    is_real_lan_ip (.v4 (natByte 192) (natByte 168) o2 o3) = true ∧
    is_real_lan_ip (.v4 (natByte 169) (natByte 254) o2 o3) = true := by
  have e : ∀ a b : Byte, is_real_lan_ip (.v4 a b o2 o3) =
      is_real_lan_ip (.v4 a b (natByte 0) (natByte 0)) := fun a b => rfl
  simp only [e]
  revert o1
  decide

/-- Witness: `C2_is_real_lan_ip_ranges` at `o1 = 18`, `o2 = o3 = 7`
(so 198.18.7.7 and 100.18.7.7's branch hypotheses are checked where they
apply; the 100.64/10 case is exercised at `o1 = 64` below). -/
theorem C2_is_real_lan_ip_ranges_witness :
    (is_real_lan_ip (.v4 (natByte 198) (natByte 18) (natByte 7) (natByte 7))
       = false) ∧
    (is_real_lan_ip (.v4 (natByte 100) (natByte 64) (natByte 7) (natByte 7))
       = false) ∧
    is_real_lan_ip (.v4 (natByte 10) (natByte 18) (natByte 7) (natByte 7))
      = true ∧
    (is_real_lan_ip (.v4 (natByte 172) (natByte 18) (natByte 7) (natByte 7))
       = true) ∧
    is_real_lan_ip (.v4 (natByte 192) (natByte 168) (natByte 7) (natByte 7))
      = true ∧
    is_real_lan_ip (.v4 (natByte 169) (natByte 254) (natByte 7) (natByte 7))
      = true :=
  ⟨(C2_is_real_lan_ip_ranges (natByte 18) (natByte 7) (natByte 7)).1
     (by decide),
   (C2_is_real_lan_ip_ranges (natByte 64) (natByte 7) (natByte 7)).2.1
     (by decide) (by decide),
   (C2_is_real_lan_ip_ranges (natByte 18) (natByte 7) (natByte 7)).2.2.1,
   (C2_is_real_lan_ip_ranges (natByte 18) (natByte 7) (natByte 7)).2.2.2.1
     (by decide) (by decide),
   (C2_is_real_lan_ip_ranges (natByte 18) (natByte 7) (natByte 7)).2.2.2.2.1,
   (C2_is_real_lan_ip_ranges (natByte 18) (natByte 7)
      (natByte 7)).2.2.2.2.2⟩

/-! ### `network/discovery.rs` — `register_service` address filter -/

/-- `if_addrs` interface addresses visible to `register_service`,
reduced to the data the filter chain uses. -/
structure IfAddr where
  ip : IpAddr
  is_loopback : Bool
deriving DecidableEq

def IpAddr.is_ipv4 : IpAddr → Bool
  | .v4 _ _ _ _ => true
  | .v6 _ => false

/-- The LAN-IP filter of `register_service`
(`discovery.rs:110-117`): drop loopbacks, keep IPv4, keep real LAN
addresses. -/
def register_service_lan_ips (ifaces : List IfAddr) : List IpAddr :=
  (((ifaces.filter (fun i => !i.is_loopback)).filter
      (fun i => i.ip.is_ipv4)).filter
      (fun i => is_real_lan_ip i.ip)).map (·.ip)

/-- **C10.**  `is_real_lan_ip` is `false` on every IPv6 address, and
every address selected by discovery's `register_service` filter is IPv4. -/
theorem C10_ipv6_never_lan :
    (∀ a : Fin (2 ^ 128), is_real_lan_ip (.v6 a) = false) ∧
    (∀ ifaces : List IfAddr,
       (register_service_lan_ips ifaces).all IpAddr.is_ipv4 = true) := by
  constructor
  · intro a
    rfl
  · intro ifaces
    rw [List.all_eq_true]
    intro ip hip
    unfold register_service_lan_ips at hip
    simp only [List.mem_map] at hip
    obtain ⟨i, hi, rfl⟩ := hip
    have h2 := List.of_mem_filter (List.mem_of_mem_filter hi)
    exact h2

end LanMeeting
